import Mathlib

/-!
Verification of the Review Annotation Pipeline of `backend/services/git_service.py`
(class `GitHubService`): the Webhook Authenticator (`verify_webhook_signature`),
the Diff Position Mapper (`_calculate_position`), the Language Sniffer
(`_detect_language`), and the Annotation Builder (`create_inline_comments`,
`_format_comment_message`).

The Python code is embedded shallowly:
- byte strings become `List Nat` (each entry `< 256`),
- Python `str` becomes Lean `String`,
- a Python value that may be `None` becomes `Option α` (`none` = Python `None`),
- a dictionary field that may be missing, `null`, or carry a value becomes
  `PyField α` (`absent` / `null` / `val a`),
- code that can raise becomes `Except String α` (the error string names the
  Python exception class).

`hashlib.sha256` / `hmac.new(..., hashlib.sha256)` are modelled by an
executable SHA-256 / HMAC-SHA256 over `List Nat`, with 32-bit words
represented as `Nat` reduced modulo `2 ^ 32`.
-/

/-! ## SHA-256 over byte lists (model of `hashlib.sha256`) -/

/-- Truncate to a 32-bit word. -/
def w32 (n : Nat) : Nat := n % 4294967296

/-- 32-bit right rotation (input assumed `< 2 ^ 32`). -/
def rotr32 (x k : Nat) : Nat := w32 ((x >>> k) ||| (x <<< (32 - k)))

/-- Bitwise complement on 32 bits. -/
def not32 (x : Nat) : Nat := x ^^^ 4294967295

def bigSigma0 (x : Nat) : Nat := (rotr32 x 2) ^^^ (rotr32 x 13) ^^^ (rotr32 x 22)

def bigSigma1 (x : Nat) : Nat := (rotr32 x 6) ^^^ (rotr32 x 11) ^^^ (rotr32 x 25)

def smallSigma0 (x : Nat) : Nat := (rotr32 x 7) ^^^ (rotr32 x 18) ^^^ (x >>> 3)

def smallSigma1 (x : Nat) : Nat := (rotr32 x 17) ^^^ (rotr32 x 19) ^^^ (x >>> 10)

def chFn (x y z : Nat) : Nat := (x &&& y) ^^^ ((not32 x) &&& z)

def majFn (x y z : Nat) : Nat := (x &&& y) ^^^ (x &&& z) ^^^ (y &&& z)

/-- The 64 SHA-256 round constants. -/
def sha256K : List Nat := [
  1116352408, 1899447441, 3049323471, 3921009573, 961987163,
  1508970993, 2453635748, 2870763221, 3624381080, 310598401,
  607225278, 1426881987, 1925078388, 2162078206, 2614888103,
  3248222580, 3835390401, 4022224774, 264347078, 604807628,
  770255983, 1249150122, 1555081692, 1996064986, 2554220882,
  2821834349, 2952996808, 3210313671, 3336571891, 3584528711,
  113926993, 338241895, 666307205, 773529912, 1294757372,
  1396182291, 1695183700, 1986661051, 2177026350, 2456956037,
  2730485921, 2820302411, 3259730800, 3345764771, 3516065817,
  3600352804, 4094571909, 275423344, 430227734, 506948616,
  659060556, 883997877, 958139571, 1322822218, 1537002063,
  1747873779, 1955562222, 2024104815, 2227730452, 2361852424,
  2428436474, 2756734187, 3204031479, 3329325298]

/-- The SHA-256 initial hash state. -/
def sha256H0 : List Nat := [
  1779033703, 3144134277, 1013904242, 2773480762, 1359893119,
  2600822924, 528734635, 1541459225]

/-- Big-endian byte decomposition of `n` into `k` bytes. -/
def toBytesBE (k : Nat) (n : Nat) : List Nat :=
  match k with
  | 0 => []
  | k + 1 => toBytesBE k (n >>> 8) ++ [n % 256]

/-- SHA-256 message padding: append `0x80`, zero bytes up to 56 mod 64,
then the bit length as 8 big-endian bytes. -/
def padMessage (msg : List Nat) : List Nat :=
  let padZeros := (119 - msg.length % 64) % 64
  msg ++ 0x80 :: List.replicate padZeros 0 ++ toBytesBE 8 (msg.length * 8)

/-- Split a byte list into 64-byte chunks (structural recursion on a fuel
bound so that the kernel can evaluate it; every chunk consumes at least one
byte, so `l.length` steps always suffice). -/
def chunk64Aux : Nat → List Nat → List (List Nat)
  | 0, _ => []
  | _, [] => []
  | fuel + 1, x :: xs => (x :: xs).take 64 :: chunk64Aux fuel ((x :: xs).drop 64)

/-- Split a byte list into 64-byte chunks. -/
def chunk64 (l : List Nat) : List (List Nat) := chunk64Aux l.length l

/-- Combine bytes into 32-bit big-endian words. -/
def bytesToWords : List Nat → List Nat
  | a :: b :: c :: d :: rest => (((a * 256 + b) * 256 + c) * 256 + d) :: bytesToWords rest
  | _ => []

/-- Extend the 16-word message schedule; `w` holds the schedule so far in
reverse order (most recent word first). -/
def extendW : Nat → List Nat → List Nat
  | 0, w => w
  | n + 1, w =>
    extendW n (w32 (smallSigma1 (w.getD 1 0) + w.getD 6 0 +
      smallSigma0 (w.getD 14 0) + w.getD 15 0) :: w)

/-- The 64-entry message schedule of one chunk. -/
def schedule (words16 : List Nat) : List Nat :=
  (extendW 48 words16.reverse).reverse

/-- One round of the SHA-256 compression function; the state is the list
`[a, b, c, d, e, f, g, h]` and `kw` is `K[i] + W[i]` (mod 2^32). -/
def compressStep (st : List Nat) (kw : Nat) : List Nat :=
  match st with
  | [a, b, c, d, e, f, g, h] =>
    let t1 := w32 (h + bigSigma1 e + chFn e f g + kw)
    let t2 := w32 (bigSigma0 a + majFn a b c)
    [w32 (t1 + t2), a, b, c, w32 (d + t1), e, f, g]
  | st => st

/-- Process one 64-byte chunk. -/
def compressChunk (h : List Nat) (chunk : List Nat) : List Nat :=
  let ws := schedule (bytesToWords chunk)
  let kws := (sha256K.zip ws).map (fun p => w32 (p.1 + p.2))
  let st := kws.foldl compressStep h
  (h.zip st).map (fun p => w32 (p.1 + p.2))

/-- SHA-256 digest (32 bytes) of a byte list. -/
def sha256 (msg : List Nat) : List Nat :=
  let hs := (chunk64 (padMessage msg)).foldl compressChunk sha256H0
  hs.foldr (fun h acc => toBytesBE 4 h ++ acc) []

/-! ## HMAC-SHA256 (model of `hmac.new(key, msg, hashlib.sha256)`) -/

/-- HMAC-SHA256 of `msg` under `key`, both byte lists. -/
def hmacSha256 (key msg : List Nat) : List Nat :=
  let key := if 64 < key.length then sha256 key else key
  let key := key ++ List.replicate (64 - key.length) 0
  let ipad := key.map (fun b => b ^^^ 0x36)
  let opad := key.map (fun b => b ^^^ 0x5c)
  sha256 (opad ++ sha256 (ipad ++ msg))

/-- Lowercase hexadecimal digit. -/
def hexDigitChar (n : Nat) : Char :=
  if n < 10 then Char.ofNat (48 + n) else Char.ofNat (87 + n)

/-- Two lowercase hex characters of one byte. -/
def byteToHex (b : Nat) : List Char := [hexDigitChar (b / 16 % 16), hexDigitChar (b % 16)]

/-- Lowercase hex string of a byte list (model of `.hexdigest()`). -/
def hexdigest (bs : List Nat) : String :=
  String.mk (bs.foldr (fun b acc => byteToHex b ++ acc) [])

/-! ## Webhook Authenticator (`GitHubService.verify_webhook_signature`) -/

/-- Whether every character of `s` is ASCII. -/
def pyAsciiOnly (s : String) : Bool := s.data.all (fun c => c.toNat < 128)

/-- Model of `hmac.compare_digest` on two `str` arguments: a constant-time
equality test that raises `TypeError` when either string has a non-ASCII
character. -/
def compare_digest (a b : String) : Except String Bool :=
  if pyAsciiOnly a && pyAsciiOnly b then .ok (a == b) else .error "TypeError"

/-- UTF-8 bytes of one character (model of Python `str.encode()`). -/
def utf8Bytes (c : Char) : List Nat :=
  let n := c.toNat
  if n < 0x80 then [n]
  else if n < 0x800 then [0xc0 ||| (n >>> 6), 0x80 ||| (n &&& 0x3f)]
  else if n < 0x10000 then
    [0xe0 ||| (n >>> 12), 0x80 ||| ((n >>> 6) &&& 0x3f), 0x80 ||| (n &&& 0x3f)]
  else
    [0xf0 ||| (n >>> 18), 0x80 ||| ((n >>> 12) &&& 0x3f),
     0x80 ||| ((n >>> 6) &&& 0x3f), 0x80 ||| (n &&& 0x3f)]

/-- UTF-8 encoding of a string as a byte list. -/
def strToUtf8Bytes (s : String) : List Nat :=
  s.data.foldr (fun c acc => utf8Bytes c ++ acc) []

/-- `GitHubService.verify_webhook_signature`, with the configured
`GITHUB_WEBHOOK_SECRET` (an `Optional[str]`, so `Option String`) passed
explicitly.  `if not self.webhook_secret: return True` accepts both `None`
and the empty string. -/
def verify_webhook_signature (webhook_secret : Option String)
    (payload_body : List Nat) (signature_header : String) : Except String Bool :=
  match webhook_secret with
  | none => .ok true
  | some secret =>
    if secret = "" then .ok true
    else
      let expected_signature :=
        "sha256=" ++ hexdigest (hmacSha256 (strToUtf8Bytes secret) payload_body)
      compare_digest expected_signature signature_header

/-! ## Diff Position Mapper (`GitHubService._calculate_position`) -/

/-- Model of Python `str.startswith`. -/
def pyStartsWith (s p : String) : Bool := p.data.isPrefixOf s.data

/-- Accumulating splitter for `pySplitLines`; `acc` holds the characters of
the current piece in reverse. -/
def splitLinesAux : List Char → List Char → List String
  | [], acc => [String.mk acc.reverse]
  | c :: rest, acc =>
    if c = '\n' then String.mk acc.reverse :: splitLinesAux rest []
    else splitLinesAux rest (c :: acc)

/-- Model of Python `str.split('\n')`: `""` yields `[""]`, a trailing
newline yields a final empty piece. -/
def pySplitLines (s : String) : List String := splitLinesAux s.data []

/-- ASCII whitespace, as matched by the regex class `\s` (Python's `\s`
additionally matches some rare Unicode whitespace, which never occurs in
patch text). -/
def isPySpace (c : Char) : Bool :=
  c = ' ' || c = '\t' || c = '\n' || c = '\x0b' || c = '\x0c' || c = '\r'

/-- ASCII decimal digit, as matched by the regex class `\d` on patch text. -/
def isPyDigit (c : Char) : Bool := '0' ≤ c && c ≤ '9'

/-- Drop leading regex-`\s*` whitespace. -/
def skipSpaces : List Char → List Char
  | [] => []
  | c :: rest => if isPySpace c then skipSpaces rest else c :: rest

/-- Greedily read decimal digits, accumulating their value. -/
def readDigitsAux : List Char → Nat → Nat × List Char
  | [], acc => (acc, [])
  | c :: rest, acc =>
    if isPyDigit c then readDigitsAux rest (acc * 10 + (c.toNat - 48)) else (acc, c :: rest)

/-- Match regex `\d+`: at least one digit, greedy. -/
def readDigits : List Char → Option (Nat × List Char)
  | [] => none
  | c :: rest => if isPyDigit c then some (readDigitsAux (c :: rest) 0) else none

/-- Match the optional regex group `(?:,\d+)?` (greedy, as in Python: taken
whenever a comma followed by a digit is next). -/
def skipCommaCount (l : List Char) : List Char :=
  match l with
  | ',' :: c :: rest => if isPyDigit c then (readDigitsAux (c :: rest) 0).2 else l
  | _ => l

/-- Match the hunk-header regex
`@@\s*-\d+(?:,\d+)?\s*\+(\d+)(?:,\d+)?\s*@@` anchored at the start of `l`,
returning the captured new-start number.  The pattern is backtracking-free
(each greedy piece ends at a character the next piece cannot start with),
so plain greedy matching coincides with Python `re` semantics. -/
def hunkMatchAt (l : List Char) : Option Nat :=
  match l with
  | '@' :: '@' :: rest =>
    match skipSpaces rest with
    | '-' :: rest2 =>
      match readDigits rest2 with
      | none => none
      | some (_, rest3) =>
        match skipSpaces (skipCommaCount rest3) with
        | '+' :: rest4 =>
          match readDigits rest4 with
          | none => none
          | some (newStart, rest5) =>
            match skipSpaces (skipCommaCount rest5) with
            | '@' :: '@' :: _ => some newStart
            | _ => none
        | _ => none
    | _ => none
  | _ => none

/-- Model of `re.search`: try the pattern at each start position, leftmost
match first. -/
def hunkSearch (l : List Char) : Option Nat :=
  match hunkMatchAt l, l with
  | some n, _ => some n
  | none, [] => none
  | none, _ :: rest => hunkSearch rest

/-- The loop body of `_calculate_position`, one equation per iteration:
`position` is incremented for every physical line; a parsed hunk header
resets `current_new_line` to the declared new start minus one; a `+` line
increments `current_new_line` and returns `position` on a target match; a
`-` line changes nothing; a leading-space line increments
`current_new_line`; any other line changes only `position`. -/
def calcPosAux (target_line : Int) :
    List String → Nat → Int → Nat
  | [], _, _ => 0
  | line :: rest, position, current_new_line =>
    let position := position + 1
    if pyStartsWith line "@@" then
      match hunkSearch line.data with
      | some newStart => calcPosAux target_line rest position ((newStart : Int) - 1)
      | none => calcPosAux target_line rest position current_new_line
    else if pyStartsWith line "+" then
      let current_new_line := current_new_line + 1
      if current_new_line == target_line then position
      else calcPosAux target_line rest position current_new_line
    else if pyStartsWith line "-" then
      calcPosAux target_line rest position current_new_line
    else if pyStartsWith line " " then
      calcPosAux target_line rest position (current_new_line + 1)
    else
      calcPosAux target_line rest position current_new_line

/-- The Diff Position Mapper on a patch text: `_calculate_position` once the
patch string is in hand (split on newlines, both counters starting at 0). -/
def resolvePosition (patch : String) (target_line : Int) : Nat :=
  calcPosAux target_line (pySplitLines patch) 0 0

/-- One file's entry of the GitHub files API: `filename` is always present,
`patch` may be missing (`"patch" not in file_data`). -/
structure FileDiff where
  filename : String
  patch : Option String
deriving DecidableEq

/-- `GitHubService._calculate_position`: 0 when the file has no patch,
otherwise the scan over the patch lines. -/
def calculate_position (file_data : FileDiff) (target_line : Int) : Nat :=
  match file_data.patch with
  | none => 0
  | some p => resolvePosition p target_line

/-! ## Language Sniffer (`GitHubService._detect_language`) -/

/-- Whether `needle` occurs as a contiguous sublist of the second list. -/
def containsSublist (needle : List Char) : List Char → Bool
  | [] => needle.isEmpty
  | c :: rest => needle.isPrefixOf (c :: rest) || containsSublist needle rest

/-- Model of Python substring membership `needle in hay` (the empty string
is a substring of everything). -/
def strContains (hay needle : String) : Bool := containsSublist needle.data hay.data

deriving instance DecidableEq for Except

/-- Model of Python `str.lower` (ASCII case mapping; the keyword tests
below only involve ASCII). -/
def pyLower (s : String) : String := String.mk (s.data.map Char.toLower)

/-- `GitHubService._detect_language`: lowercase the snippet, then test the
keyword sets in fixed order, first hit wins. -/
def detect_language (code_snippet : String) : String :=
  let code_lower := pyLower code_snippet
  if ["def ", "import ", "from ", "print(", "__init__"].any
      (strContains code_lower) then "python"
  else if ["function ", "const ", "let ", "var ", "=>", "console.log"].any
      (strContains code_lower) then "javascript"
  else if ["public class", "private ", "public static", "system.out"].any
      (strContains code_lower) then "java"
  else if ["#include", "int main", "printf(", "cout <<"].any
      (strContains code_lower) then "cpp"
  else if ["func ", "package ", "import (", "fmt.print"].any
      (strContains code_lower) then "go"
  else "text"

/-! ## Finding model

A finding is a JSON object produced by the Analysis Provider; each field of
interest is either missing from the dictionary, present with value `null`,
or present with a value.
-/

/-- A dictionary slot: missing key, `null` value, or a proper value. -/
inductive PyField (α : Type) where
  | absent
  | null
  | val (a : α)
deriving DecidableEq

/-- Model of `dict.get(key)` (no default): the Python result as an
`Option` (`none` = Python `None`). -/
def PyField.get {α : Type} : PyField α → Option α
  | .val a => some a
  | _ => none

/-- Model of `dict.get(key, default)`: the default applies only when the
key is missing; a stored `null` still comes back as `None`. -/
def PyField.getD {α : Type} : PyField α → α → Option α
  | .absent, d => some d
  | .null, _ => none
  | .val a, _ => some a

/-- Model of `key in dict`. -/
def PyField.present {α : Type} : PyField α → Bool
  | .absent => false
  | _ => true

/-- Python truthiness of an optional string (`None` and `""` are falsy). -/
def strTruthy (o : Option String) : Bool :=
  match o with
  | none => false
  | some s => s != ""

/-- Python `str()` rendering inside an f-string (`None` prints as
`"None"`). -/
def pyStr (o : Option String) : String :=
  match o with
  | none => "None"
  | some s => s

/-- One entry of the `line_comments` array handed to the Annotation
Builder. -/
structure Finding where
  file : PyField String
  line : PyField Int
  severity : PyField String
  code_snippet : PyField String
  issue : PyField String
  impact : PyField String
  fix : PyField String
  message : PyField String
deriving DecidableEq

/-! ## Comment-body formatting (`GitHubService._format_comment_message`) -/

/-- The `parts.append` pattern of the structured branch: one list entry when
the field is truthy, none otherwise. -/
def optPart (o : Option String) (f : String → String) : List String :=
  match o with
  | none => []
  | some s => if s = "" then [] else [f s]

/-- Model of Python `"\n".join(parts)` (also covers the trailing
`if parts else ""`, since joining the empty list gives `""`). -/
def pyJoin (sep : String) : List String → String
  | [] => ""
  | [s] => s
  | s :: rest => s ++ sep ++ pyJoin sep rest

/-- `GitHubService._format_comment_message`.  The only way it can raise is
the legacy branch's `code_snippet not in message` when `message` is a
stored `null` (Python `None` is not iterable), hence the `Except`. -/
def format_comment_message (comment_data : Finding) : Except String String :=
  if comment_data.issue.present || comment_data.impact.present ||
      comment_data.fix.present then
    -- new structured format with separate fields
    let severity := pyStr (comment_data.severity.getD "SUGGESTION")
    let parts : List String :=
      optPart (comment_data.issue.getD "")
        (fun issue => "**" ++ severity ++ "**: " ++ issue) ++
      optPart (comment_data.code_snippet.getD "")
        (fun cs => "\n**Current code:**\n```" ++ detect_language cs ++ "\n" ++ cs ++ "\n```") ++
      optPart (comment_data.impact.getD "")
        (fun impact => "\n**Impact:** " ++ impact) ++
      optPart (comment_data.fix.getD "")
        (fun fix => "\n**Recommended fix:** " ++ fix)
    .ok (pyJoin "\n" parts)
  else if comment_data.message.present then
    -- old format with single message field
    let message := comment_data.message.getD ""
    let severity := pyStr (comment_data.severity.getD "SUGGESTION")
    let code_snippet := comment_data.code_snippet.getD ""
    match code_snippet with
    | some cs =>
      if cs != "" then
        match message with
        | none => .error "TypeError"
        | some m =>
          if strContains m cs then .ok ("**" ++ severity ++ "**: " ++ m)
          else .ok ("**" ++ severity ++ "**: " ++ m ++ "\n\n```" ++
            detect_language cs ++ "\n" ++ cs ++ "\n```")
      else .ok ("**" ++ severity ++ "**: " ++ pyStr message)
    | none => .ok ("**" ++ severity ++ "**: " ++ pyStr message)
  else
    -- fallback: construct from whatever is available
    let severity := pyStr (comment_data.severity.getD "SUGGESTION")
    match comment_data.code_snippet.getD "" with
    | some cs =>
      if cs != "" then
        .ok ("**" ++ severity ++ "**: Code review suggestion\n\n```" ++
          detect_language cs ++ "\n" ++ cs ++ "\n```")
      else .ok ("**" ++ severity ++ "**: Code review suggestion")
    | none => .ok ("**" ++ severity ++ "**: Code review suggestion")

/-- Whether formatting succeeds without raising. -/
def formatOk (comment_data : Finding) : Bool :=
  match format_comment_message comment_data with
  | .ok _ => true
  | .error _ => false

/-! ## Annotation Builder (`GitHubService.create_inline_comments`) -/

/-- `models.ReviewComment`. -/
structure ReviewComment where
  body : String
  path : String
  position : Nat
deriving DecidableEq

/-- The Analysis Provider result, reduced to the field the builder reads. -/
structure AIReviewResult where
  line_comments : List Finding
deriving DecidableEq

/-- The dictionary comprehension `{f["filename"]: f for f in pr_files}`
followed by lookup: later entries overwrite earlier ones, so the fold keeps
the last file with the given name. -/
def fileMapLookup (pr_files : List FileDiff) (name : String) : Option FileDiff :=
  pr_files.foldl (fun acc f => if f.filename == name then some f else acc) none

/-- The `for comment_data in line_comments` loop of
`create_inline_comments`: each iteration either skips the finding
(`continue`), raises (propagating the formatter's `TypeError`), or appends
one comment. -/
def createLoop (pr_files : List FileDiff) :
    List Finding → Except String (List ReviewComment)
  | [] => .ok []
  | comment_data :: rest =>
    match comment_data.file.get, comment_data.line.get with
    | some file_path, some line_number =>
      if file_path == "" || line_number == 0 then createLoop pr_files rest
      else
        match fileMapLookup pr_files file_path with
        | none => createLoop pr_files rest
        | some fd =>
          let position := calculate_position fd line_number
          if position == 0 then createLoop pr_files rest
          else
            match format_comment_message comment_data with
            | .error e => .error e
            | .ok message =>
              if message == "" then createLoop pr_files rest
              else
                match createLoop pr_files rest with
                | .error e => .error e
                | .ok cs => .ok (⟨message, file_path, position⟩ :: cs)
    | _, _ => createLoop pr_files rest

/-- `GitHubService.create_inline_comments`. -/
def create_inline_comments (ai_review_result : AIReviewResult)
    (pr_files : List FileDiff) : Except String (List ReviewComment) :=
  createLoop pr_files ai_review_result.line_comments

/-- The per-finding outcome of the builder: `none` when the finding is
dropped (missing/falsy file or line, unknown file, unresolvable position,
failed or empty formatting), otherwise the comment it contributes. -/
def emitComment (pr_files : List FileDiff) (comment_data : Finding) :
    Option ReviewComment :=
  match comment_data.file.get, comment_data.line.get with
  | some file_path, some line_number =>
    if file_path == "" || line_number == 0 then none
    else
      match fileMapLookup pr_files file_path with
      | none => none
      | some fd =>
        let position := calculate_position fd line_number
        if position == 0 then none
        else
          match format_comment_message comment_data with
          | .error _ => none
          | .ok message =>
            if message == "" then none
            else some ⟨message, file_path, position⟩
  | _, _ => none

/-- Which of `issue` / `impact` / `fix` being present selects the
structured rule. -/
def structuredPresent (d : Finding) : Bool :=
  d.issue.present || d.impact.present || d.fix.present

/-- A structured finding has a usable field: one of `issue`,
`code_snippet`, `impact`, `fix` carries a non-empty string. -/
def usableStructured (d : Finding) : Bool :=
  strTruthy (d.issue.getD "") || strTruthy (d.code_snippet.getD "") ||
  strTruthy (d.impact.getD "") || strTruthy (d.fix.getD "")

/-! ## Validation against reference values

SHA-256 / HMAC-SHA256 are checked against standard test vectors, the
mapper against the worked example of the documentation.
-/

example : hexdigest (sha256 []) =
    "e3b0c44298fc1c149afbf4c8996fb92427ae41e4649b934ca495991b7852b855" := by decide

example : hexdigest (sha256 [97, 98, 99]) =
    "ba7816bf8f01cfea414140de5dae2223b00361a396177a9cb410ff61f20015ad" := by decide

set_option maxRecDepth 8000 in
example : hexdigest (hmacSha256 (strToUtf8Bytes "k") []) =
    "8bb990c40a7d61cb97597a942125025be50ac8beb74436e3735b98893a7f6620" := by decide

set_option maxRecDepth 8000 in
example : hexdigest (hmacSha256 (strToUtf8Bytes "key")
      (strToUtf8Bytes "The quick brown fox jumps over the lazy dog")) =
    "f7bc83f430538424b13298e6aa6fb143ef4d59a14946175997479dbc2d1a3cd8" := by decide

example : resolvePosition "@@ -1,3 +1,4 @@\n line1\n+line2\n line3\n+line4" 2 = 3 := by decide
example : resolvePosition "@@ -1,3 +1,4 @@\n line1\n+line2\n line3\n+line4" 4 = 5 := by decide
example : resolvePosition "@@ -1,3 +1,4 @@\n line1\n+line2\n line3\n+line4" 99 = 0 := by decide
example : resolvePosition "+++ b/f" 1 = 1 := by decide
example : resolvePosition "@@ -1,1 +1,2 @@\n\n+x" 2 = 0 := by decide
example : resolvePosition "@@ -1,1 +1,2 @@\n \n+x" 2 = 3 := by decide

example : format_comment_message
    ⟨.absent, .absent, .absent, .val "x", .absent, .absent, .absent, .null⟩ =
    .error "TypeError" := by decide

example : create_inline_comments
    ⟨[⟨.val "f", .val 1, .absent, .val "x", .absent, .absent, .absent, .null⟩]⟩
    [⟨"f", some "@@ -0,0 +1 @@\n+x"⟩] = .error "TypeError" := by decide

example : create_inline_comments
    ⟨[⟨.val "f", .val 1, .absent, .absent, .absent, .absent, .absent, .val "hello"⟩]⟩
    [⟨"f", some "@@ -0,0 +1 @@\n+x"⟩] =
    .ok [⟨"**SUGGESTION**: hello", "f", 2⟩] := by decide

example : detect_language "def foo(): import os" = "python" := by decide
example : detect_language "const x = () => 1" = "javascript" := by decide
example : detect_language "" = "text" := by decide

/-! ## Helper lemmas -/

/-- Unfolding `(a :: as).isPrefixOf (b :: bs)`. -/
theorem prefixOf_cons (a b : Char) (as bs : List Char) :
    (a :: as).isPrefixOf (b :: bs) = ((a == b) && as.isPrefixOf bs) := rfl

/-- Appending to a non-empty string stays non-empty. -/
theorem str_append_ne_left (s t : String) (h : s ≠ "") : s ++ t ≠ "" := by
  obtain ⟨sd⟩ := s
  obtain ⟨td⟩ := t
  intro he
  apply h
  have hd : sd ++ td = [] := by
    have := congrArg String.data he
    simpa [String.append] using this
  have : sd = [] := (List.append_eq_nil.mp hd).1
  simp [this]

/-- Joining a non-empty list of non-empty strings is non-empty. -/
theorem pyJoin_ne (sep : String) :
    ∀ parts : List String, parts ≠ [] → (∀ p ∈ parts, p ≠ "") →
      pyJoin sep parts ≠ "" := by
  intro parts
  induction parts with
  | nil => intro h _; exact absurd rfl h
  | cons s rest ih =>
    intro _ hall
    cases rest with
    | nil => exact hall s (List.mem_cons_self s [])
    | cons s2 r2 =>
      show s ++ sep ++ pyJoin sep (s2 :: r2) ≠ ""
      exact str_append_ne_left _ _ (str_append_ne_left _ _ (hall s (List.mem_cons_self s _)))

/-- Range of the mapper loop: the result is `0` or lies strictly between
the starting position and the starting position plus the number of
remaining lines. -/
theorem calcPosAux_range (target : Int) :
    ∀ (lines : List String) (pos : Nat) (nl : Int),
      calcPosAux target lines pos nl = 0 ∨
        (pos < calcPosAux target lines pos nl ∧
         calcPosAux target lines pos nl ≤ pos + lines.length) := by
  intro lines
  induction lines with
  | nil => intro pos nl; left; rfl
  | cons line rest ih =>
    intro pos nl
    have step : ∀ nl' : Int,
        calcPosAux target rest (pos + 1) nl' = 0 ∨
          (pos < calcPosAux target rest (pos + 1) nl' ∧
           calcPosAux target rest (pos + 1) nl' ≤ pos + (line :: rest).length) := by
      intro nl'
      rcases ih (pos + 1) nl' with h | ⟨h1, h2⟩
      · exact Or.inl h
      · right
        constructor
        · omega
        · simp only [List.length_cons]; omega
    simp only [calcPosAux]
    split
    · split
      · exact step _
      · exact step _
    · split
      · split
        · right
          constructor
          · omega
          · simp only [List.length_cons]; omega
        · exact step _
      · split
        · exact step _
        · split
          · exact step _
          · exact step _

/-! ## C4 -/

/-- C4: on the concrete patch `"@@ -1,3 +1,4 @@\n line1\n+line2\n line3\n+line4"`,
the mapper sends target line 2 to position 3 (the first `+` line), target
line 4 to position 5 (the second `+` line), and target line 99 to 0. -/
theorem c4_theorem :
    resolvePosition "@@ -1,3 +1,4 @@\n line1\n+line2\n line3\n+line4" 2 = 3 ∧
    resolvePosition "@@ -1,3 +1,4 @@\n line1\n+line2\n line3\n+line4" 4 = 5 ∧
    resolvePosition "@@ -1,3 +1,4 @@\n line1\n+line2\n line3\n+line4" 99 = 0 :=
  ⟨by decide, by decide, by decide⟩

/-! ## C7 -/

/-- C7: the mapper is total (it is a Lean function, so it returns on every
patch string and integer target without throwing, and is deterministic by
definition), and its value is either 0 or a position between 1 and the
number of physical lines of the patch. -/
theorem c7_theorem (patch : String) (target_line : Int) :
    resolvePosition patch target_line = 0 ∨
      (1 ≤ resolvePosition patch target_line ∧
       resolvePosition patch target_line ≤ (pySplitLines patch).length) := by
  have h := calcPosAux_range target_line (pySplitLines patch) 0 0
  rcases h with h | ⟨h1, h2⟩
  · exact Or.inl h
  · right
    constructor
    · exact h1
    · simpa using h2

/-! ## C1 -/

/-- C1 counterexample: the claim says a `+++` file-marker line can never be
returned as the matching position.  On the patch consisting of the single
line `"+++ b/f"`, the code classifies that line as an added line,
increments the new-line counter to 1 and returns its position 1 for target
line 1 — so the `+++` line is returned as the match. -/
theorem c1_counterexample : resolvePosition "+++ b/f" 1 = 1 := by decide

/-- C1 amended: `---` lines are treated as removed lines (the counter is
unchanged and the line is never returned), but `+++` lines are classified
as added lines: the counter is incremented and the line's position is
returned when the incremented counter hits the target. -/
theorem c1_theorem (line : String) (rest : List String)
    (target_line : Int) (position : Nat) (current_new_line : Int) :
    (pyStartsWith line "---" = true →
      calcPosAux target_line (line :: rest) position current_new_line =
        calcPosAux target_line rest (position + 1) current_new_line) ∧
    (pyStartsWith line "+++" = true →
      calcPosAux target_line (line :: rest) position current_new_line =
        if current_new_line + 1 == target_line then position + 1
        else calcPosAux target_line rest (position + 1) (current_new_line + 1)) := by
  obtain ⟨ldata⟩ := line
  constructor
  · intro h
    rw [pyStartsWith, List.isPrefixOf_iff_prefix] at h
    obtain ⟨t, ht⟩ := h
    subst ht
    rfl
  · intro h
    rw [pyStartsWith, List.isPrefixOf_iff_prefix] at h
    obtain ⟨t, ht⟩ := h
    subst ht
    rfl

/-- C1 witness: the amended theorem at the concrete lines `"--- a/f"` and
`"+++ b/f"`. -/
theorem c1_witness :
    calcPosAux 1 ["--- a/f"] 0 0 = calcPosAux 1 [] 1 0 ∧
    calcPosAux 1 ["+++ b/f"] 0 0 =
      (if (0 : Int) + 1 == 1 then 0 + 1 else calcPosAux 1 [] (0 + 1) (0 + 1)) :=
  ⟨( c1_theorem "--- a/f" [] 1 0 0).1 (by decide),
   ( c1_theorem "+++ b/f" [] 1 0 0).2 (by decide)⟩

/-! ## C3 -/

/-- C3 counterexample: the claim says a line with no leading `+`, `-`,
space or `@@` advances the new-line counter exactly like a context line.
Replacing the context line `" "` by the empty line `""` in an otherwise
identical patch changes the result for target 2 from 3 to 0, so the empty
line did not advance the counter. -/
theorem c3_counterexample :
    resolvePosition "@@ -1,1 +1,2 @@\n\n+x" 2 = 0 ∧
    resolvePosition "@@ -1,1 +1,2 @@\n \n+x" 2 = 3 :=
  ⟨by decide, by decide⟩

/-- C3 amended: a patch line that is not a hunk header and has no leading
`+`, `-` or space advances only the position counter; the running new-line
counter is left unchanged (unlike a context line, which increments it). -/
theorem c3_theorem (line : String) (rest : List String)
    (target_line : Int) (position : Nat) (current_new_line : Int)
    (h1 : pyStartsWith line "@@" = false) (h2 : pyStartsWith line "+" = false)
    (h3 : pyStartsWith line "-" = false) (h4 : pyStartsWith line " " = false) :
    calcPosAux target_line (line :: rest) position current_new_line =
      calcPosAux target_line rest (position + 1) current_new_line := by
  simp only [calcPosAux, h1, h2, h3, h4, Bool.false_eq_true, if_false]

/-- C3 witness: the amended theorem at the concrete empty line. -/
theorem c3_witness : calcPosAux 5 [""] 0 0 = calcPosAux 5 [] 1 0 :=
  c3_theorem "" [] 5 0 0 (by decide) (by decide) (by decide) (by decide)

/-! ## Builder helper lemmas -/

/-- Master description of the builder loop: it either raises, with some
finding of the list responsible (its formatter raises), or returns exactly
the `filterMap` of the per-finding outcome. -/
theorem createLoop_spec (pr_files : List FileDiff) :
    ∀ findings : List Finding,
      (∃ e, createLoop pr_files findings = .error e ∧
        ∃ f ∈ findings, formatOk f = false) ∨
      createLoop pr_files findings =
        .ok (findings.filterMap (emitComment pr_files)) := by
  intro findings
  induction findings with
  | nil => right; rfl
  | cons f rest ih =>
    have lift : (∃ e, createLoop pr_files rest = .error e ∧
        ∃ g ∈ rest, formatOk g = false) →
        (∃ e, createLoop pr_files rest = .error e ∧
          ∃ g ∈ f :: rest, formatOk g = false) := by
      rintro ⟨e, he, g, hg, hfmt⟩
      exact ⟨e, he, g, List.mem_cons_of_mem f hg, hfmt⟩
    rw [List.filterMap_cons]
    cases hfile : f.file.get with
    | none =>
      have hskip : createLoop pr_files (f :: rest) = createLoop pr_files rest := by
        cases hline : f.line.get <;> simp [createLoop, hfile, hline]
      have hemit : emitComment pr_files f = none := by
        cases hline : f.line.get <;> simp [emitComment, hfile, hline]
      rw [hskip, hemit]
      rcases ih with h | h
      · exact Or.inl (lift h)
      · exact Or.inr h
    | some file_path =>
      cases hline : f.line.get with
      | none =>
        have hskip : createLoop pr_files (f :: rest) = createLoop pr_files rest := by
          simp [createLoop, hfile, hline]
        have hemit : emitComment pr_files f = none := by
          simp [emitComment, hfile, hline]
        rw [hskip, hemit]
        rcases ih with h | h
        · exact Or.inl (lift h)
        · exact Or.inr h
      | some line_number =>
        cases hguard : (file_path == "" || line_number == 0) with
        | true =>
          have hskip : createLoop pr_files (f :: rest) = createLoop pr_files rest := by
            simp [createLoop, hfile, hline, hguard]
          have hemit : emitComment pr_files f = none := by
            simp [emitComment, hfile, hline, hguard]
          rw [hskip, hemit]
          rcases ih with h | h
          · exact Or.inl (lift h)
          · exact Or.inr h
        | false =>
          cases hlook : fileMapLookup pr_files file_path with
          | none =>
            have hskip : createLoop pr_files (f :: rest) = createLoop pr_files rest := by
              simp [createLoop, hfile, hline, hguard, hlook]
            have hemit : emitComment pr_files f = none := by
              simp [emitComment, hfile, hline, hguard, hlook]
            rw [hskip, hemit]
            rcases ih with h | h
            · exact Or.inl (lift h)
            · exact Or.inr h
          | some fd =>
            cases hpos : (calculate_position fd line_number == 0) with
            | true =>
              have hskip : createLoop pr_files (f :: rest) = createLoop pr_files rest := by
                simp [createLoop, hfile, hline, hguard, hlook, hpos]
              have hemit : emitComment pr_files f = none := by
                simp [emitComment, hfile, hline, hguard, hlook, hpos]
              rw [hskip, hemit]
              rcases ih with h | h
              · exact Or.inl (lift h)
              · exact Or.inr h
            | false =>
              cases hfmt : format_comment_message f with
              | error e =>
                left
                refine ⟨e, ?_, f, List.mem_cons_self f rest, ?_⟩
                · simp [createLoop, hfile, hline, hguard, hlook, hpos, hfmt]
                · simp [formatOk, hfmt]
              | ok message =>
                cases hmsg : (message == "") with
                | true =>
                  have hskip : createLoop pr_files (f :: rest) = createLoop pr_files rest := by
                    simp [createLoop, hfile, hline, hguard, hlook, hpos, hfmt, hmsg]
                  have hemit : emitComment pr_files f = none := by
                    simp [emitComment, hfile, hline, hguard, hlook, hpos, hfmt, hmsg]
                  rw [hskip, hemit]
                  rcases ih with h | h
                  · exact Or.inl (lift h)
                  · exact Or.inr h
                | false =>
                  have hemit : emitComment pr_files f =
                      some ⟨message, file_path, calculate_position fd line_number⟩ := by
                    simp [emitComment, hfile, hline, hguard, hlook, hpos, hfmt, hmsg]
                  rw [hemit]
                  have hstep : createLoop pr_files (f :: rest) =
                      match createLoop pr_files rest with
                      | .error e => .error e
                      | .ok cs =>
                        .ok (⟨message, file_path, calculate_position fd line_number⟩ :: cs) := by
                    simp [createLoop, hfile, hline, hguard, hlook, hpos, hfmt, hmsg]
                  rcases ih with ⟨e, he, hcrash⟩ | h
                  · left
                    refine ⟨e, ?_, ?_⟩
                    · rw [hstep, he]
                    · rcases hcrash with ⟨g, hg, hfmtg⟩
                      exact ⟨g, List.mem_cons_of_mem f hg, hfmtg⟩
                  · right
                    rw [hstep, h]

/-- A finding that contributes a comment contributes one with a positive
position (the loop skips whenever `_calculate_position` returns 0). -/
theorem emitComment_pos (pr_files : List FileDiff) (f : Finding) (c : ReviewComment)
    (h : emitComment pr_files f = some c) : 1 ≤ c.position := by
  simp only [emitComment] at h
  repeat' split at h
  all_goals try cases h
  simp_all
  omega

/-! ## C5 -/

/-- C5 counterexample: the claim says `buildComments` never raises on any
input finding list.  A finding that survives the guards (file `"f"`, line 1
resolvable in the patch) and matches the legacy schema with a `null`
`message` and a non-empty `code_snippet` reaches
`code_snippet not in message` with `message = None`, and the builder raises
`TypeError` instead of returning. -/
theorem c5_counterexample :
    create_inline_comments
      ⟨[⟨.val "f", .val 1, .absent, .val "x", .absent, .absent, .absent, .null⟩]⟩
      [⟨"f", some "@@ -0,0 +1 @@\n+x"⟩] = .error "TypeError" := by decide

/-- C5 amended: provided no finding makes the formatter raise (the only
raising shape: legacy schema with stored-`null` `message` and non-empty
`code_snippet`), the builder returns without raising exactly the
`filterMap` of the per-finding outcome — so it drops precisely the
unresolvable or unusable findings and emits the rest in their original
relative order. -/
theorem c5_theorem (r : AIReviewResult) (pr_files : List FileDiff)
    (h : ∀ f ∈ r.line_comments, formatOk f = true) :
    create_inline_comments r pr_files =
      .ok (r.line_comments.filterMap (emitComment pr_files)) := by
  rcases createLoop_spec pr_files r.line_comments with ⟨e, _, g, hg, hfmt⟩ | hok
  · rw [h g hg] at hfmt; cases hfmt
  · exact hok

/-- C5 witness: a malformed finding (no file) is dropped, a well-formed one
survives, order and content as computed by the per-finding outcome. -/
theorem c5_witness :
    create_inline_comments
      ⟨[⟨.val "f", .val 1, .absent, .absent, .absent, .absent, .absent, .val "hello"⟩,
        ⟨.absent, .val 1, .absent, .absent, .absent, .absent, .absent, .val "dropped"⟩]⟩
      [⟨"f", some "@@ -0,0 +1 @@\n+x"⟩] =
      .ok [⟨"**SUGGESTION**: hello", "f", 2⟩] :=
  (c5_theorem _ _ (by decide)).trans (by decide)

/-! ## C8 -/

/-- C8: every comment in a successfully returned batch has position at
least 1. -/
theorem c8_theorem (r : AIReviewResult) (pr_files : List FileDiff)
    (L : List ReviewComment) (h : create_inline_comments r pr_files = .ok L) :
    ∀ c ∈ L, 1 ≤ c.position := by
  intro c hc
  rcases createLoop_spec pr_files r.line_comments with ⟨e, he, _⟩ | hok
  · rw [create_inline_comments, he] at h; cases h
  · rw [create_inline_comments, hok] at h
    injection h with h
    subst h
    rw [List.mem_filterMap] at hc
    obtain ⟨f, _, hemit⟩ := hc
    exact emitComment_pos pr_files f c hemit

/-- C8 witness: the theorem applied to a concrete run that emits one
comment at position 2. -/
theorem c8_witness : 1 ≤ (ReviewComment.mk "**SUGGESTION**: hi" "g" 2).position :=
  c8_theorem
    ⟨[⟨.val "g", .val 1, .absent, .absent, .absent, .absent, .absent, .val "hi"⟩]⟩
    [⟨"g", some "@@ -0,0 +1 @@\n+y"⟩]
    [⟨"**SUGGESTION**: hi", "g", 2⟩] (by decide) _ (by simp)

/-! ## C9 -/

/-- Appending a file at the end of the list makes it the one found for its
name: the dictionary comprehension overwrites earlier entries. -/
theorem fileMapLookup_append_last (files : List FileDiff) (fd : FileDiff) :
    fileMapLookup (files ++ [fd]) fd.filename = some fd := by
  simp [fileMapLookup, List.foldl_append]

/-- Once some list member carries the looked-up name, the fold's starting
accumulator is irrelevant. -/
theorem lookup_foldl_indep (name : String) :
    ∀ (files : List FileDiff) (i j : Option FileDiff),
      (∃ f ∈ files, f.filename = name) →
      files.foldl (fun acc f => if f.filename == name then some f else acc) i =
        files.foldl (fun acc f => if f.filename == name then some f else acc) j := by
  intro files
  induction files with
  | nil => intro i j h; simp at h
  | cons g rest ih =>
    intro i j h
    simp only [List.foldl_cons]
    by_cases hg : g.filename = name
    · simp [hg]
    · have hrest : ∃ f ∈ rest, f.filename = name := by
        rcases h with ⟨f, hf, hname⟩
        rcases List.mem_cons.mp hf with rfl | hf2
        · exact absurd hname hg
        · exact ⟨f, hf2, hname⟩
      have hbeq : (g.filename == name) = false := by simp [hg]
      rw [hbeq]
      exact ih i j hrest

/-- A leading file whose name occurs again later in the list is never
consulted: dropping it changes no lookup. -/
theorem fileMapLookup_cons_dup (fd0 : FileDiff) (files : List FileDiff)
    (h : ∃ f ∈ files, f.filename = fd0.filename) (name : String) :
    fileMapLookup (fd0 :: files) name = fileMapLookup files name := by
  simp only [fileMapLookup, List.foldl_cons]
  by_cases hn : fd0.filename = name
  · subst hn
    exact lookup_foldl_indep _ files _ _ h
  · have : (fd0.filename == name) = false := by simp [hn]
    simp [this]

/-- The builder depends on the file list only through the lookup. -/
theorem createLoop_lookup_congr (files1 files2 : List FileDiff)
    (hcong : ∀ n, fileMapLookup files1 n = fileMapLookup files2 n) :
    ∀ findings : List Finding,
      createLoop files1 findings = createLoop files2 findings := by
  intro findings
  induction findings with
  | nil => rfl
  | cons f rest ih =>
    simp only [createLoop, hcong, ih]

/-- C9: with duplicate filenames the LAST `FileDiff` of the list wins —
appending `fd` at the end makes the lookup for its name resolve to `fd`,
and a `FileDiff` whose name occurs again later in the list is never
consulted (removing it leaves the builder's output unchanged). -/
theorem c9_theorem (fd : FileDiff) (files : List FileDiff) (r : AIReviewResult) :
    fileMapLookup (files ++ [fd]) fd.filename = some fd ∧
    ((∃ f ∈ files, f.filename = fd.filename) →
      create_inline_comments r (fd :: files) = create_inline_comments r files) := by
  constructor
  · exact fileMapLookup_append_last files fd
  · intro h
    exact createLoop_lookup_congr _ _ (fileMapLookup_cons_dup fd files h) r.line_comments

/-- C9 witness: two files named `"a"` — the appended one is found, and the
shadowed earlier one can be dropped without changing the build. -/
theorem c9_witness :
    fileMapLookup ([FileDiff.mk "a" none] ++ [FileDiff.mk "a" (some "@@ -0,0 +1 @@\n+z")]) "a" =
      some (FileDiff.mk "a" (some "@@ -0,0 +1 @@\n+z")) ∧
    create_inline_comments
      ⟨[⟨.val "a", .val 1, .absent, .absent, .absent, .absent, .absent, .val "m"⟩]⟩
      (FileDiff.mk "a" (some "@@ -0,0 +1 @@\n+z") :: [FileDiff.mk "a" none]) =
    create_inline_comments
      ⟨[⟨.val "a", .val 1, .absent, .absent, .absent, .absent, .absent, .val "m"⟩]⟩
      [FileDiff.mk "a" none] :=
  ⟨(c9_theorem (FileDiff.mk "a" (some "@@ -0,0 +1 @@\n+z")) [FileDiff.mk "a" none] ⟨[]⟩).1,
   (c9_theorem (FileDiff.mk "a" (some "@@ -0,0 +1 @@\n+z")) [FileDiff.mk "a" none]
      ⟨[⟨.val "a", .val 1, .absent, .absent, .absent, .absent, .absent, .val "m"⟩]⟩).2
      ⟨FileDiff.mk "a" none, by simp, rfl⟩⟩

/-! ## C10 -/

/-- A finding whose `file` is missing/null/empty or whose `line` is
missing/null/zero is skipped by the loop wherever it sits, against every
file list — before any lookup or position mapping could be attempted. -/
theorem createLoop_skip_bad (pr_files : List FileDiff) (f : Finding)
    (hbad : f.file.get = none ∨ f.file.get = some "" ∨
      f.line.get = none ∨ f.line.get = some 0) :
    ∀ pre post : List Finding,
      createLoop pr_files (pre ++ f :: post) = createLoop pr_files (pre ++ post) := by
  intro pre
  induction pre with
  | nil =>
    intro post
    simp only [List.nil_append]
    rcases hbad with h | h | h | h
    · cases hline : f.line.get <;> simp [createLoop, h, hline]
    · cases hline : f.line.get <;> simp [createLoop, h, hline]
    · cases hfile : f.file.get <;> simp [createLoop, h, hfile]
    · cases hfile : f.file.get <;> simp [createLoop, h, hfile]
  | cons g pre2 ih =>
    intro post
    simp only [List.cons_append, createLoop, List.append_eq, ih]

/-- C10: the builder drops every finding with a missing, `null` or falsy
(`0` / `""`) `line` or `file` — such a finding contributes nothing no
matter what the file list contains (even a file named `""`), so the drop
happens before any position mapping. -/
theorem c10_theorem (pr_files : List FileDiff) (pre post : List Finding) (f : Finding)
    (hbad : f.file.get = none ∨ f.file.get = some "" ∨
      f.line.get = none ∨ f.line.get = some 0) :
    create_inline_comments ⟨pre ++ f :: post⟩ pr_files =
      create_inline_comments ⟨pre ++ post⟩ pr_files :=
  createLoop_skip_bad pr_files f hbad pre post

/-- C10 witness: a line-0 finding vanishes even when a file named `""`
with a matching patch is present. -/
theorem c10_witness :
    create_inline_comments
      ⟨[⟨.val "", .val 0, .absent, .absent, .absent, .absent, .absent, .val "m"⟩]⟩
      [FileDiff.mk "" (some "@@ -0,0 +1 @@\n+z")] =
    create_inline_comments ⟨[]⟩ [FileDiff.mk "" (some "@@ -0,0 +1 @@\n+z")] :=
  c10_theorem [FileDiff.mk "" (some "@@ -0,0 +1 @@\n+z")] [] []
    ⟨.val "", .val 0, .absent, .absent, .absent, .absent, .absent, .val "m"⟩
    (Or.inr (Or.inl rfl))

/-! ## C6 -/

/-- Members of `optPart o f` are values of `f`. -/
theorem optPart_mem {o : Option String} {f : String → String} {p : String}
    (hp : p ∈ optPart o f) : ∃ s, p = f s := by
  cases o with
  | none => simp [optPart] at hp
  | some s =>
    by_cases hs : s = ""
    · simp [optPart, hs] at hp
    · simp [optPart, hs] at hp
      exact ⟨s, hp⟩

/-- A truthy optional string is a non-empty `some`. -/
theorem strTruthy_some {o : Option String} (h : strTruthy o = true) :
    ∃ s, o = some s ∧ s ≠ "" := by
  cases o with
  | none => simp [strTruthy] at h
  | some s =>
    refine ⟨s, rfl, ?_⟩
    simpa [strTruthy] using h

/-- C6 counterexample: the claim says each schema yields a non-empty body
whenever a usable field is present.  A legacy finding (`message` present,
no structured field) with a stored-`null` `message` and the usable
non-empty snippet `"x"` makes the formatter raise `TypeError` instead of
producing a body. -/
theorem c6_counterexample :
    format_comment_message
      ⟨.absent, .absent, .absent, .val "x", .absent, .absent, .absent, .null⟩ =
      .error "TypeError" := by decide

/-- C6 amended: the first matching schema rule wins in the order
Structured, Legacy, Fallback — in particular the Structured rule ignores
`message` entirely; a Structured finding yields a non-empty body whenever
one of issue/snippet/impact/fix is usable; a Fallback finding always
yields a non-empty body; and a Legacy finding yields a non-empty body
except in the raising case (stored-`null` `message` together with a
non-empty snippet), which must be excluded. -/
theorem c6_theorem (d : Finding) :
    (structuredPresent d = true →
      ∀ m : PyField String,
        format_comment_message { d with message := m } = format_comment_message d) ∧
    (structuredPresent d = true → usableStructured d = true →
      ∃ body, format_comment_message d = .ok body ∧ body ≠ "") ∧
    (structuredPresent d = false → d.message.present = true →
      (d.message = PyField.null → strTruthy (d.code_snippet.getD "") = false) →
      ∃ body, format_comment_message d = .ok body ∧ body ≠ "") ∧
    (structuredPresent d = false → d.message.present = false →
      ∃ body, format_comment_message d = .ok body ∧ body ≠ "") := by
  refine ⟨?_, ?_, ?_, ?_⟩
  · intro hs m
    have hc : (d.issue.present || d.impact.present || d.fix.present) = true := by
      simpa [structuredPresent] using hs
    simp [format_comment_message, hc]
  · intro hs hu
    have hc : (d.issue.present || d.impact.present || d.fix.present) = true := by
      simpa [structuredPresent] using hs
    simp only [format_comment_message, hc, if_true]
    refine ⟨_, rfl, ?_⟩
    apply pyJoin_ne
    · simp only [usableStructured, Bool.or_eq_true] at hu
      rcases hu with ((h1 | h2) | h3) | h4
      · obtain ⟨s, hso, hsne⟩ := strTruthy_some h1
        simp [hso, optPart, hsne, List.append_eq_nil]
      · obtain ⟨s, hso, hsne⟩ := strTruthy_some h2
        simp [hso, optPart, hsne, List.append_eq_nil]
      · obtain ⟨s, hso, hsne⟩ := strTruthy_some h3
        simp [hso, optPart, hsne, List.append_eq_nil]
      · obtain ⟨s, hso, hsne⟩ := strTruthy_some h4
        simp [hso, optPart, hsne, List.append_eq_nil]
    · intro p hp
      simp only [List.mem_append] at hp
      rcases hp with ((h1 | h2) | h3) | h4
      · obtain ⟨s, rfl⟩ := optPart_mem h1
        repeat apply str_append_ne_left
        decide
      · obtain ⟨s, rfl⟩ := optPart_mem h2
        repeat apply str_append_ne_left
        decide
      · obtain ⟨s, rfl⟩ := optPart_mem h3
        repeat apply str_append_ne_left
        decide
      · obtain ⟨s, rfl⟩ := optPart_mem h4
        repeat apply str_append_ne_left
        decide
  · intro hs hm hsafe
    have hc : (d.issue.present || d.impact.present || d.fix.present) = false := by
      simpa [structuredPresent] using hs
    simp only [format_comment_message, hc, hm, Bool.false_eq_true, if_false, if_true]
    cases hsnip : d.code_snippet.getD "" with
    | none =>
      refine ⟨_, rfl, ?_⟩
      repeat apply str_append_ne_left
      decide
    | some cs =>
      by_cases hcs : cs = ""
      · subst hcs
        simp only [bne_self_eq_false, Bool.false_eq_true, if_false]
        refine ⟨_, rfl, ?_⟩
        repeat apply str_append_ne_left
        decide
      · have hbne : (cs != "") = true := by simpa using hcs
        simp only [hbne, if_true]
        cases hmv : d.message with
        | absent => rw [hmv] at hm; cases hm
        | null =>
          exfalso
          have := hsafe hmv
          rw [hsnip] at this
          simp [strTruthy, hcs] at this
        | val mv =>
          simp only [PyField.getD]
          by_cases hin : strContains mv cs
          · simp only [hin, if_true]
            refine ⟨_, rfl, ?_⟩
            repeat apply str_append_ne_left
            decide
          · have hin2 : strContains mv cs = false := by simpa using hin
            simp only [hin2, Bool.false_eq_true, if_false]
            refine ⟨_, rfl, ?_⟩
            repeat apply str_append_ne_left
            decide
  · intro hs hm
    have hc : (d.issue.present || d.impact.present || d.fix.present) = false := by
      simpa [structuredPresent] using hs
    simp only [format_comment_message, hc, hm, Bool.false_eq_true, if_false]
    cases hsnip : d.code_snippet.getD "" with
    | none =>
      refine ⟨_, rfl, ?_⟩
      repeat apply str_append_ne_left
      decide
    | some cs =>
      by_cases hcs : cs = ""
      · subst hcs
        simp only [bne_self_eq_false, Bool.false_eq_true, if_false]
        refine ⟨_, rfl, ?_⟩
        repeat apply str_append_ne_left
        decide
      · have hbne : (cs != "") = true := by simpa using hcs
        simp only [hbne, if_true]
        refine ⟨_, rfl, ?_⟩
        repeat apply str_append_ne_left
        decide

/-- C6 witness: the amended theorem at concrete findings — the Structured
rule ignores a present `message`, and a structured finding with a usable
`issue` yields a non-empty body. -/
theorem c6_witness :
    (format_comment_message
      ⟨.absent, .absent, .val "HIGH", .absent, .val "bad call", .absent, .absent, .val "legacy"⟩ =
     format_comment_message
      ⟨.absent, .absent, .val "HIGH", .absent, .val "bad call", .absent, .absent, .absent⟩) ∧
    ∃ body, format_comment_message
      ⟨.absent, .absent, .val "HIGH", .absent, .val "bad call", .absent, .absent, .absent⟩ =
        .ok body ∧ body ≠ "" :=
  ⟨(c6_theorem ⟨.absent, .absent, .val "HIGH", .absent, .val "bad call", .absent, .absent,
      .absent⟩).1 (by decide) (.val "legacy"),
   (c6_theorem ⟨.absent, .absent, .val "HIGH", .absent, .val "bad call", .absent, .absent,
      .absent⟩).2.1 (by decide) (by decide)⟩

/-! ## C2 -/

/-- Hex digits are ASCII. -/
theorem byteToHex_ascii (b : Nat) : ∀ c ∈ byteToHex b, c.toNat < 128 := by
  have h16 : ∀ m, m < 16 → (hexDigitChar m).toNat < 128 := by decide
  intro c hc
  simp only [byteToHex, List.mem_cons, List.not_mem_nil, or_false] at hc
  rcases hc with rfl | rfl
  · exact h16 _ (Nat.mod_lt _ (by omega))
  · exact h16 _ (Nat.mod_lt _ (by omega))

/-- All characters of the hex rendering are ASCII. -/
theorem hexChars_ascii :
    ∀ (bs : List Nat) (c : Char),
      c ∈ bs.foldr (fun b acc => byteToHex b ++ acc) [] → c.toNat < 128 := by
  intro bs
  induction bs with
  | nil => intro c hc; simp at hc
  | cons b rest ih =>
    intro c hc
    simp only [List.foldr_cons, List.mem_append] at hc
    rcases hc with hc | hc
    · exact byteToHex_ascii b c hc
    · exact ih c hc

/-- A hex digest is an ASCII string. -/
theorem hexdigest_ascii (bs : List Nat) : pyAsciiOnly (hexdigest bs) = true := by
  rw [pyAsciiOnly, hexdigest]
  rw [List.all_eq_true]
  intro c hc
  simpa using hexChars_ascii bs c hc

/-- The data of an appended string is the appended data. -/
theorem str_data_append (a b : String) : (a ++ b).data = a.data ++ b.data := by
  cases a
  cases b
  rfl

/-- The expected signature computed by the authenticator is ASCII. -/
theorem expected_sig_ascii (secret : String) (payload : List Nat) :
    pyAsciiOnly ("sha256=" ++ hexdigest (hmacSha256 (strToUtf8Bytes secret) payload)) = true := by
  have h1 := hexdigest_ascii (hmacSha256 (strToUtf8Bytes secret) payload)
  rw [pyAsciiOnly] at *
  rw [List.all_eq_true] at *
  intro c hc
  rw [str_data_append, List.mem_append] at hc
  rcases hc with hc | hc
  · revert hc
    have : ∀ c ∈ "sha256=".data, decide (c.toNat < 128) = true := by decide
    exact this c
  · exact h1 c hc

set_option maxRecDepth 8000 in
/-- C2 counterexample: the claim says `verify` never throws.  With a
configured secret and the non-ASCII signature header `"é"`,
`hmac.compare_digest` on `str` arguments raises `TypeError`, so the
verification call raises instead of returning a boolean. -/
theorem c2_counterexample :
    verify_webhook_signature (some "s") [] "é" = .error "TypeError" := by decide

/-- C2 amended: an empty or unset secret bypasses verification
unconditionally; with a non-empty secret and an ASCII signature header the
call returns true exactly when the header equals `"sha256="` followed by
the lowercase hex HMAC-SHA256 digest of the payload under the secret (so
any digest- or header-changing mutation yields false); but a non-ASCII
header makes it raise `TypeError` rather than return. -/
theorem c2_theorem (webhook_secret : Option String) (payload_body : List Nat)
    (signature_header : String) :
    ((webhook_secret = none ∨ webhook_secret = some "") →
      verify_webhook_signature webhook_secret payload_body signature_header = .ok true) ∧
    (∀ secret, webhook_secret = some secret → secret ≠ "" →
      pyAsciiOnly signature_header = true →
      (verify_webhook_signature webhook_secret payload_body signature_header = .ok true ↔
        signature_header =
          "sha256=" ++ hexdigest (hmacSha256 (strToUtf8Bytes secret) payload_body))) ∧
    (∀ secret, webhook_secret = some secret → secret ≠ "" →
      pyAsciiOnly signature_header = false →
      verify_webhook_signature webhook_secret payload_body signature_header =
        .error "TypeError") := by
  refine ⟨?_, ?_, ?_⟩
  · rintro (rfl | rfl)
    · rfl
    · simp [verify_webhook_signature]
  · rintro secret rfl hne hascii
    have hexp := expected_sig_ascii secret payload_body
    simp only [verify_webhook_signature, compare_digest, if_neg hne, hexp, hascii,
      Bool.and_self, if_true, Except.ok.injEq, beq_iff_eq]
    exact eq_comm
  · rintro secret rfl hne hascii
    have hexp := expected_sig_ascii secret payload_body
    simp only [verify_webhook_signature, compare_digest, if_neg hne, hexp, hascii,
      Bool.and_false, Bool.false_eq_true, if_false]

set_option maxRecDepth 8000 in
/-- C2 witness: the bypass at an unset secret, and a true verification at
secret `"k"`, empty payload, and the matching precomputed digest. -/
theorem c2_witness :
    verify_webhook_signature none [7] "x" = .ok true ∧
    verify_webhook_signature (some "k") []
      "sha256=8bb990c40a7d61cb97597a942125025be50ac8beb74436e3735b98893a7f6620" =
      .ok true :=
  ⟨(c2_theorem none [7] "x").1 (Or.inl rfl),
   ((c2_theorem (some "k") []
      "sha256=8bb990c40a7d61cb97597a942125025be50ac8beb74436e3735b98893a7f6620").2.1 "k" rfl
      (by decide) (by decide)).mpr (by decide)⟩
